import Mathlib

set_option maxRecDepth 100000
set_option maxHeartbeats 2000000
set_option linter.unusedVariables false
set_option linter.unreachableTactic false
set_option linter.unusedTactic false

namespace Pysonic

/-- Decoded JSON values, the output of Python's `json.loads` (the json standard
library is an external collaborator; bodies are modelled at the decoded-value
level).  Python `None` is `null`, dicts are `obj` association lists in key
order, numbers are modelled as integers (the inputs relevant to the spec are
integral). -/
inductive Json where
  | null : Json
  | bool (b : Bool) : Json
  | num (n : Int) : Json
  | str (s : String) : Json
  | arr (elems : List Json) : Json
  | obj (fields : List (String × Json)) : Json

/-- First-match association-list lookup; Python dicts decoded from JSON have
unique keys, for which this is exactly `raw[key]` returning `some`/`none`. -/
def assocLookup {α : Type} (l : List (String × α)) (k : String) : Option α :=
  match l with
  | [] => Option.none
  | (k', v) :: rest => if k' = k then some v else assocLookup rest k

/-- Lookup that also certifies the found value is structurally smaller than the
mapping, used for the termination argument of the recursive materializers. -/
def assocFind (l : List (String × Json)) (k : String) :
    Option {v : Json // sizeOf v < sizeOf l} :=
  match l with
  | [] => Option.none
  | (k', v) :: rest =>
    if k' = k then some ⟨v, by simp; omega⟩
    else
      match assocFind rest k with
      | Option.none => Option.none
      | some ⟨w, h⟩ => some ⟨w, by simp; omega⟩

/-- Removing a set of keys from a raw mapping (the claims quantify over raw
mappings that omit an arbitrary subset of the declared keys). -/
def eraseKeys (removed : List String) : List (String × α) → List (String × α)
  | [] => []
  | p :: rest =>
    if removed.contains p.1 then eraseKeys removed rest
    else p :: eraseKeys removed rest

/-- Python `dict` insert-or-overwrite: an existing key keeps its position and
gets the new value, a new key is appended. -/
def dictUpdate (l : List (String × α)) (k : String) (v : α) : List (String × α) :=
  match l with
  | [] => [(k, v)]
  | (k', v') :: rest => if k' = k then (k, v) :: rest else (k', v') :: dictUpdate rest k v

/-- Python `dict.update` / `{**a, **b}`: fold `dictUpdate` over the entries of
the second mapping. -/
def dictUpdateAll (l : List (String × α)) (entries : List (String × α)) :
    List (String × α) :=
  entries.foldl (fun acc p => dictUpdate acc p.1 p.2) l

namespace Fields

/-- fields.py `_snake_to_camel_case`: lowercase, split on `_`, `str.capitalize`
each word, join, then lowercase the first character.  Implemented on the
character list of the string; all registry names are ASCII, for which Python's
case functions agree with `Char.toUpper`/`Char.toLower`. -/
def splitUnderscore : List Char → List (List Char)
  | [] => [[]]
  | c :: rest =>
    let r := splitUnderscore rest
    if c = '_' then [] :: r
    else
      match r with
      | [] => [[c]]
      | w :: ws => (c :: w) :: ws

/-- Python `str.capitalize`: first character uppercased, the rest lowercased. -/
def pyCapitalize : List Char → List Char
  | [] => []
  | c :: rest => c.toUpper :: rest.map Char.toLower

/-- Lowercase the first character only (`camel_case[0].lower() + camel_case[1:]`;
the empty string, on which the source would raise IndexError, is mapped to
itself and never arises from the registry). -/
def pyLowerFirst : List Char → List Char
  | [] => []
  | c :: rest => c.toLower :: rest

def _snake_to_camel_case (snake_case : String) : String :=
  let words := splitUnderscore (snake_case.data.map Char.toLower)
  String.mk (pyLowerFirst (words.map pyCapitalize).flatten)

/-- fields.py `_camel_to_snake_case`.  The source's first statement
`camel_case.replace("musicBrainz", "musicbrainz")` discards its result (Python
strings are immutable and the return value is not assigned), so it has no
effect; the function is the regex substitution of `_` at `(?<!^)(?=[A-Z])`
followed by `.lower()`: insert `_` before every ASCII uppercase letter not at
position 0, then lowercase everything. -/
def _camel_to_snake_case (camel_case : String) : String :=
  match camel_case.data with
  | [] => ""
  | c :: rest =>
    String.mk ((c :: (rest.map (fun d => if d.isUpper then ['_', d] else [d])).flatten).map
      Char.toLower)

end Fields

/-- Both modules enable `from __future__ import annotations` (PEP 563), so the
values stored in `cls.__annotations__` and consulted by `from_dict` as
`want_type` are the source-text strings of the annotations, not type objects.
`typing.get_origin` applied to a plain string is `None`, hence the
`origin is list` branch of `_Field.from_dict` can never be taken. -/
def typingGetOrigin (want_type : String) : Option Unit := Option.none

/-- Under PEP 563, `typing.get_args` of a plain string is the empty tuple. -/
def typingGetArgs (want_type : String) : List Unit := []

/-- Python `==` between a PEP 563 string annotation (`want_type`) and a class
object such as `datetime` or `timedelta` is always `False`, hence the
`base_type == datetime` and `base_type == timedelta` branches of
`_Field.from_dict` can never be taken. -/
def annStringEqClass (want_type : String) (clsName : String) : Bool := false

/-- Values an attribute of a materialized instance can hold: Python `None`, a
raw decoded-JSON value stored unchanged by `setattr`, a parsed timestamp, a
duration in seconds, or a nested materialized record instance. -/
inductive MValue where
  | none : MValue
  | raw (value : Json) : MValue
  | datetime (iso : String) : MValue
  | timedelta (seconds : Int) : MValue
  | record (clsName : String) (attrs : List (String × MValue)) : MValue

/-- Errors `from_dict` can propagate: a failed `globals()[...]` / `raw[...]`
lookup, `get_args(...)[0]` on an empty tuple, or indexing a non-mapping. -/
inductive MErr where
  | keyError (name : String) : MErr
  | indexError : MErr
  | typeError : MErr

/-- A fields.py record class: its name as bound in the module's globals and the
`__annotations__` dicts (name, PEP 563 source-text string) of the classes on
its `__mro__` that pass the `issubclass(cls, _Field)` filter, in MRO order
(the concrete class first, then `_Field`, whose contribution is empty). -/
structure FieldClass where
  clsName : String
  mroAnns : List (List (String × String))

/-- The MRO walk at the top of `_Field.from_dict`:
`all_annotations.update(cls.__annotations__)` over `__mro__`. -/
def allAnns (c : FieldClass) : List (String × String) :=
  c.mroAnns.foldl dictUpdateAll []

/-- Uppercase the first character only
(`f"{class_name[0].upper()}{class_name[1:]}"`). -/
def upperFirst (s : String) : String :=
  match s.data with
  | [] => ""
  | c :: rest => String.mk (c.toUpper :: rest)

/-- An album from ID3 tags (fields.py `AlbumID3Field`). -/
def AlbumID3Field : FieldClass :=
  { clsName := "AlbumID3Field"
    mroAnns := [[("id", "str"),
                 ("name", "str"),
                 ("version", "str | None"),
                 ("artist", "str | None"),
                 ("artist_id", "str | None"),
                 ("cover_art", "str | None"),
                 ("song_count", "int"),
                 ("duration", "timedelta"),
                 ("play_count", "int | None"),
                 ("created", "datetime"),
                 ("starred", "datetime | None"),
                 ("year", "int | None"),
                 ("genre", "str | None"),
                 ("played", "datetime | None"),
                 ("user_rating", "Literal[1, 2, 3, 4, 5] | None"),
                 ("record_labels", "list[RecordLabelField] | None"),
                 ("musicbrainz_id", "str | None"),
                 ("genres", "list[ItemGenreField] | None"),
                 ("artists", "list[ArtistID3Field] | None"),
                 ("display_artist", "str | None"),
                 ("release_types", "list[str] | None"),
                 ("moods", "list[str] | None"),
                 ("sort_name", "str | None"),
                 ("original_release_date", "ItemDateField | None"),
                 ("release_date", "ItemDateField | None"),
                 ("is_compilation", "bool | None"),
                 ("explicit_status", "Literal[\"explicit\", \"clean\", \"\"] | None"),
                 ("disc_titles", "list[DiscTitleField] | None")],
                []] }

/-- An artist from ID3 tags (fields.py `ArtistID3Field`). -/
def ArtistID3Field : FieldClass :=
  { clsName := "ArtistID3Field"
    mroAnns := [[("id", "str"),
                 ("name", "str"),
                 ("cover_art", "str | None"),
                 ("artist_image_url", "str | None"),
                 ("album_count", "int | None"),
                 ("starred", "datetime | None"),
                 ("musicbrainz_id", "str | None"),
                 ("sort_name", "str | None"),
                 ("roles", "list[str] | None")],
                []] }

/-- A media (fields.py `ChildField`). -/
def ChildField : FieldClass :=
  { clsName := "ChildField"
    mroAnns := [[("id", "str"),
                 ("parent", "str | None"),
                 ("is_dir", "bool"),
                 ("title", "str"),
                 ("album", "str | None"),
                 ("artist", "str | None"),
                 ("track", "int | None"),
                 ("year", "int | None"),
                 ("genre", "str | None"),
                 ("cover_art", "str | None"),
                 ("size", "int | None"),
                 ("content_type", "str | None"),
                 ("suffix", "str | None"),
                 ("transcoded_content_type", "str | None"),
                 ("transcoded_suffix", "str | None"),
                 ("duration", "timedelta | None"),
                 ("bit_rate", "int | None"),
                 ("bit_depth", "int | None"),
                 ("sampling_rate", "int | None"),
                 ("channel_count", "int | None"),
                 ("path", "str | None"),
                 ("is_video", "bool | None"),
                 ("user_rating", "Literal[1, 2, 3, 4, 5] | None"),
                 ("average_rating", "Annotated[float, ValueRange(1.0, 5.0)] | None"),
                 ("play_count", "int | None"),
                 ("disc_number", "int | None"),
                 ("created", "datetime | None"),
                 ("starred", "datetime | None"),
                 ("album_id", "str | None"),
                 ("artist_id", "str | None"),
                 ("type", "Literal[\"music\", \"podcast\", \"audiobook\", \"video\"] | None"),
                 ("media_type", "Literal[\"song\", \"album\", \"artist\"] | None"),
                 ("bookmark_position", "timedelta | None"),
                 ("original_width", "int | None"),
                 ("original_height", "int | None"),
                 ("played", "datetime | None"),
                 ("bpm", "int | None"),
                 ("comment", "str | None"),
                 ("sort_name", "str | None"),
                 ("musicbrainz_id", "str | None"),
                 ("isrc", "list[str] | None"),
                 ("genres", "list[ItemGenreField] | None"),
                 ("artists", "list[ArtistID3Field] | None"),
                 ("display_artist", "str | None"),
                 ("album_artists", "list[ArtistID3Field] | None"),
                 ("display_album_artist", "str | None"),
                 ("contributors", "list[ContributorField] | None"),
                 ("display_composer", "str | None"),
                 ("moods", "list[str] | None"),
                 ("replaygain", "ReplayGainField | None"),
                 ("explicit_status", "Literal[\"explicit\", \"clean\", \"\", 1, 2, 4] | None")],
                []] }

/-- A contributor artist for a song or an album (fields.py `ContributorField`). -/
def ContributorField : FieldClass :=
  { clsName := "ContributorField"
    mroAnns := [[("role", "str"),
                 ("sub_role", "str"),
                 ("artist", "ArtistID3Field")],
                []] }

/-- Directory (fields.py `DirectoryField`). -/
def DirectoryField : FieldClass :=
  { clsName := "DirectoryField"
    mroAnns := [[("id", "str"),
                 ("parent", "str | None"),
                 ("name", "str"),
                 ("starred", "datetime | None"),
                 ("user_rating", "Literal[1, 2, 3, 4, 5] | None"),
                 ("average_rating", "Annotated[float, ValueRange(1.0, 5.0)] | None"),
                 ("play_count", "int | None"),
                 ("child", "list[ChildField] | None")],
                []] }

/-- A disc title for an album (fields.py `DiscTitleField`). -/
def DiscTitleField : FieldClass :=
  { clsName := "DiscTitleField"
    mroAnns := [[("disc", "int"),
                 ("title", "str")],
                []] }

/-- Error (fields.py `ErrorField`). -/
def ErrorField : FieldClass :=
  { clsName := "ErrorField"
    mroAnns := [[("code", "Literal[0, 10, 20, 30, 40, 41, 42, 43, 44, 50, 60, 70]"),
                 ("message", "str | None"),
                 ("help_url", "str | None")],
                []] }

/-- A date for a media item (fields.py `ItemDateField`). -/
def ItemDateField : FieldClass :=
  { clsName := "ItemDateField"
    mroAnns := [[("year", "int | None"),
                 ("month", "Literal[1, 2, 3, 4, 5, 6, 7, 8, 9, 10, 11, 12] | None"),
                 ("day", "Literal[1, 2, 3, 4, 5, 6, 7, 8, 9, 10, 11, 12, 13, 14, 15, 16, 17, 18, 19, 20, 21, 22, 23, 24, 25, 26, 27, 28, 29, 30, 31] | None")],
                []] }

/-- A genre returned in list of genres for an item (fields.py `ItemGenreField`). -/
def ItemGenreField : FieldClass :=
  { clsName := "ItemGenreField"
    mroAnns := [[("name", "str")],
                []] }

/-- Music folder (fields.py `MusicFolderField`). -/
def MusicFolderField : FieldClass :=
  { clsName := "MusicFolderField"
    mroAnns := [[("id", "int"),
                 ("name", "str | None")],
                []] }

/-- Music folders (fields.py `MusicFoldersField`). -/
def MusicFoldersField : FieldClass :=
  { clsName := "MusicFoldersField"
    mroAnns := [[("music_folder", "list[MusicFolderField]")],
                []] }

/-- A record label for an album (fields.py `RecordLabelField`). -/
def RecordLabelField : FieldClass :=
  { clsName := "RecordLabelField"
    mroAnns := [[("name", "str")],
                []] }

/-- The ReplayGain data of a song (fields.py `ReplayGainField`). -/
def ReplayGainField : FieldClass :=
  { clsName := "ReplayGainField"
    mroAnns := [[("track_gain", "float | None"),
                 ("album_gain", "float | None"),
                 ("track_peak", "Annotated[float, ValueRange(0, None)] | None"),
                 ("album_peak", "Annotated[float, ValueRange(0, None)] | None"),
                 ("base_gain", "float | None"),
                 ("fallback_gain", "float | None")],
                []] }

/-- The `_Field` subclasses bound in fields.py's module globals.  Any other
name (functions, imported helpers, `ValueRange`, ...) is never the target of a
successful `_get_class` lookup because `_get_class` appends the suffix
`"Field"`, so names outside this table raise `KeyError`. -/
def fieldsGlobals (name : String) : Option FieldClass :=
  if name = "AlbumID3Field" then some AlbumID3Field
  else if name = "ArtistID3Field" then some ArtistID3Field
  else if name = "ChildField" then some ChildField
  else if name = "ContributorField" then some ContributorField
  else if name = "DirectoryField" then some DirectoryField
  else if name = "DiscTitleField" then some DiscTitleField
  else if name = "ErrorField" then some ErrorField
  else if name = "ItemDateField" then some ItemDateField
  else if name = "ItemGenreField" then some ItemGenreField
  else if name = "MusicFolderField" then some MusicFolderField
  else if name = "MusicFoldersField" then some MusicFoldersField
  else if name = "RecordLabelField" then some RecordLabelField
  else if name = "ReplayGainField" then some ReplayGainField
  else Option.none

/-- fields.py `_get_class`: `globals()[f"{name}Field"]`. -/
def fieldsGetClass (name : String) : Option FieldClass :=
  fieldsGlobals (name ++ "Field")

mutual

/-- The per-value branch of `_Field.from_dict`, reached when the looked-up raw
value is present and not null.  The `origin is list`, `base_type == datetime`
and `base_type == timedelta` branches are unreachable under PEP 563 (see
`typingGetOrigin` / `annStringEqClass`); a dict value triggers the dynamic
class lookup `_get_class` on the capitalized camelCase attribute name and a
recursive `from_dict`; everything else is assigned unchanged by `setattr`. -/
def fieldsCoerceValue (variable_name : String) (want_type : String)
    (value : Json) : Except MErr MValue :=
  match typingGetOrigin want_type with
  | some _ =>
    -- `item_type = get_args(base_type)[0]` indexes the empty tuple: IndexError.
    match typingGetArgs want_type with
    | [] => Except.error MErr.indexError
    | _ :: _ => Except.error MErr.indexError
  | Option.none =>
    if annStringEqClass want_type "datetime" then
      -- `datetime.fromisoformat(value)` (unreachable).
      match value with
      | Json.str s => Except.ok (MValue.datetime s)
      | _ => Except.error MErr.typeError
    else if annStringEqClass want_type "timedelta" then
      -- `timedelta(seconds=value)` (unreachable).
      match value with
      | Json.num n => Except.ok (MValue.timedelta n)
      | _ => Except.error MErr.typeError
    else
      match value with
      | Json.obj objFields =>
        match fieldsGetClass (upperFirst (Fields._snake_to_camel_case variable_name)) with
        | Option.none =>
          Except.error (MErr.keyError
            (upperFirst (Fields._snake_to_camel_case variable_name) ++ "Field"))
        | some cls =>
          (fieldsFromDict cls objFields).map (MValue.record cls.clsName)
      | _ => Except.ok (MValue.raw value)
termination_by (sizeOf value, 0)
decreasing_by
  all_goals simp_wf
  all_goals first
    | (apply Prod.Lex.left; omega)
    | (apply Prod.Lex.right; omega)
    | (apply Prod.Lex.left; simp; omega)
    | (apply Prod.Lex.right; simp; omega)
    | (apply Prod.Lex.left; simp_all; omega)
    | (apply Prod.Lex.right; simp_all; omega)
    | (apply Prod.Lex.left; simp)
    | (apply Prod.Lex.right; simp)

/-- The attribute loop of `_Field.from_dict` over the merged annotations:
look up the camelCase key (`KeyError` means absent and yields `None`), short
circuit null to `None`, otherwise coerce; `setattr` collects the attributes in
iteration order. -/
def fieldsFromDictAttrs (anns : List (String × String)) (raw : List (String × Json)) :
    Except MErr (List (String × MValue)) :=
  match anns with
  | [] => Except.ok []
  | (variable_name, want_type) :: rest =>
    let step : Except MErr MValue :=
      match assocFind raw (Fields._snake_to_camel_case variable_name) with
      | Option.none => Except.ok MValue.none
      | some ⟨Json.null, _⟩ => Except.ok MValue.none
      | some ⟨value, hv⟩ => fieldsCoerceValue variable_name want_type value
    match step with
    | Except.error e => Except.error e
    | Except.ok v =>
      (fieldsFromDictAttrs rest raw).map (fun tl => (variable_name, v) :: tl)
termination_by (sizeOf raw, 1 + sizeOf anns)
decreasing_by
  all_goals simp_wf
  all_goals first
    | (apply Prod.Lex.left; omega)
    | (apply Prod.Lex.right; omega)
    | (apply Prod.Lex.left; simp; omega)
    | (apply Prod.Lex.right; simp; omega)
    | (apply Prod.Lex.left; simp_all; omega)
    | (apply Prod.Lex.right; simp_all; omega)
    | (apply Prod.Lex.left; simp)
    | (apply Prod.Lex.right; simp)

/-- fields.py `_Field.from_dict` for a given record class and raw mapping. -/
def fieldsFromDict (cls : FieldClass) (raw : List (String × Json)) :
    Except MErr (List (String × MValue)) :=
  fieldsFromDictAttrs (allAnns cls) raw
termination_by (sizeOf raw, 3 + sizeOf (allAnns cls))
decreasing_by
  all_goals simp_wf
  all_goals first
    | (apply Prod.Lex.left; omega)
    | (apply Prod.Lex.right; omega)
    | (apply Prod.Lex.left; simp; omega)
    | (apply Prod.Lex.right; simp; omega)
    | (apply Prod.Lex.left; simp_all; omega)
    | (apply Prod.Lex.right; simp_all; omega)
    | (apply Prod.Lex.left; simp)
    | (apply Prod.Lex.right; simp)

end

namespace Responses

/-- responses.py `_camel_to_snake_case`: the regex substitution of `_` at
`(?<!^)(?=[A-Z])` followed by `.lower()` (this module's copy has no
`musicBrainz` line at all). -/
def _camel_to_snake_case (camel_case : String) : String :=
  match camel_case.data with
  | [] => ""
  | c :: rest =>
    String.mk ((c :: (rest.map (fun d => if d.isUpper then ['_', d] else [d])).flatten).map
      Char.toLower)

/-- responses.py `_snake_to_camel_case`, textually identical to the fields.py
copy: lowercase, split on `_`, capitalize each word, join, lowercase the first
character. -/
def _snake_to_camel_case (snake_case : String) : String :=
  let words := Fields.splitUnderscore (snake_case.data.map Char.toLower)
  String.mk (Fields.pyLowerFirst (words.map Fields.pyCapitalize).flatten)

end Responses

/-- Python `str.title` on ASCII input: a letter is uppercased when the previous
character is not a letter and lowercased otherwise; non-letters pass through. -/
def pyTitleGo : List Char → Bool → List Char
  | [], _ => []
  | c :: rest, prevAlpha =>
    (if c.isAlpha then (if prevAlpha then c.toLower else c.toUpper) else c)
      :: pyTitleGo rest c.isAlpha

/-- Python `str.title` (e.g. `"error".title() = "Error"`,
`"server_version".title() = "Server_Version"`). -/
def pyTitle (s : String) : String :=
  String.mk (pyTitleGo s.data false)

/-- A responses.py record class: its name as bound in the module's globals and
the annotation names of `vars(cls)["__annotations__"]` — `_BaseResponse.from_dict`
iterates only the class's OWN annotation dict (no MRO walk), and only its keys;
the PEP 563 string values are never consulted. -/
structure ResponsesClass where
  clsName : String
  annNames : List String

/-- Common answer wrapper (responses.py `SubsonicResponse`).  Declared
attributes: `status`, `version`, `type`, `server_version`, `open_subsonic`,
`error`. -/
def SubsonicResponse : ResponsesClass :=
  { clsName := "SubsonicResponse"
    annNames := ["status", "version", "type", "server_version", "open_subsonic", "error"] }

/-- Error (responses.py `Error`). -/
def Error : ResponsesClass :=
  { clsName := "Error"
    annNames := ["code", "message", "help_url"] }

/-- The `_BaseResponse` subclasses bound in responses.py's module globals.
`_get_class` is `globals()[name]`; the names actually constructed by
`from_dict` (`str.title` of the snake-cased attribute name) match a class only
for `"Error"`, every other constructed name raises `KeyError`. -/
def responsesGlobals (name : String) : Option ResponsesClass :=
  if name = "SubsonicResponse" then some SubsonicResponse
  else if name = "Error" then some Error
  else Option.none

/-- The attribute loop of `_BaseResponse.from_dict`: look up the camelCase key
(`KeyError` means absent and yields `None`); a dict value triggers
`_get_class(_camel_to_snake_case(variable_name).title())(value)` and a
recursive `from_dict`; anything else (including a JSON null, which decodes to
`None`) is assigned unchanged by `setattr`. -/
def responsesFromDictAttrs (annNames : List String) (raw : List (String × Json)) :
    Except MErr (List (String × MValue)) :=
  match annNames with
  | [] => Except.ok []
  | variable_name :: rest =>
    let step : Except MErr MValue :=
      match assocFind raw (Responses._snake_to_camel_case variable_name) with
      | Option.none => Except.ok MValue.none
      | some ⟨Json.null, _⟩ => Except.ok MValue.none
      | some ⟨Json.obj objFields, _⟩ =>
        match responsesGlobals (pyTitle (Responses._camel_to_snake_case variable_name)) with
        | Option.none =>
          Except.error (MErr.keyError (pyTitle (Responses._camel_to_snake_case variable_name)))
        | some cls =>
          (responsesFromDictAttrs cls.annNames objFields).map (MValue.record cls.clsName)
      | some ⟨value, _⟩ => Except.ok (MValue.raw value)
    match step with
    | Except.error e => Except.error e
    | Except.ok v =>
      (responsesFromDictAttrs rest raw).map (fun tl => (variable_name, v) :: tl)
termination_by (sizeOf raw, sizeOf annNames)
decreasing_by
  all_goals simp_wf
  all_goals first
    | (apply Prod.Lex.left; omega)
    | (apply Prod.Lex.right; omega)
    | (apply Prod.Lex.left; simp; omega)
    | (apply Prod.Lex.right; simp; omega)
    | (apply Prod.Lex.left; simp_all; omega)
    | (apply Prod.Lex.right; simp_all; omega)
    | (apply Prod.Lex.left; simp)
    | (apply Prod.Lex.right; simp)

/-- responses.py `_BaseResponse.from_dict` for a given response class and raw
mapping. -/
def responsesFromDict (cls : ResponsesClass) (raw : List (String × Json)) :
    Except MErr (List (String × MValue)) :=
  responsesFromDictAttrs cls.annNames raw

/-- responses.py `_parse_json`: descend into the `"subsonic-response"` envelope
key of the decoded body (`KeyError` if the key is absent, `TypeError` if the
body is not a mapping). -/
def responsesParseJson (body : Json) : Except MErr Json :=
  match body with
  | Json.obj fs =>
    match assocLookup fs "subsonic-response" with
    | some v => Except.ok v
    | Option.none => Except.error (MErr.keyError "subsonic-response")
  | _ => Except.error MErr.typeError

/-- `responses.SubsonicResponse(text)` on a textual body: `__init__` routes a
string through `from_json`, which parses it, descends into the envelope and
runs `from_dict`; a non-mapping envelope value makes `from_dict`'s `raw[...]`
lookups raise `TypeError`. -/
def subsonicResponseOfText (body : Json) : Except MErr (List (String × MValue)) :=
  match responsesParseJson body with
  | Except.error e => Except.error e
  | Except.ok (Json.obj fs) => responsesFromDict SubsonicResponse fs
  | Except.ok _ => Except.error MErr.typeError

/-- responses.py `SubsonicResponse.is_response_ok`: `self.status == "ok"`.
Python `==` between the stored attribute and the literal `"ok"` is `True`
exactly when the attribute holds that string; `None`, numbers, booleans and
record instances all compare unequal, and no exception is raised. -/
def is_response_ok (inst : List (String × MValue)) : Bool :=
  match assocLookup inst "status" with
  | some (MValue.raw (Json.str s)) => s == "ok"
  | _ => false

/-- UTF-8 encoding of one character (`str.encode("utf-8")`), as byte values. -/
def utf8EncodeChar (c : Char) : List Nat :=
  let n := c.toNat
  if n < 128 then [n]
  else if n < 2048 then [192 + n / 64, 128 + n % 64]
  else if n < 65536 then [224 + n / 4096, 128 + (n / 64) % 64, 128 + n % 64]
  else [240 + n / 262144, 128 + (n / 4096) % 64, 128 + (n / 64) % 64, 128 + n % 64]

/-- UTF-8 encoding of a string, as the list of its byte values. -/
def utf8Encode (s : String) : List Nat :=
  (s.data.map utf8EncodeChar).flatten

/-- Truncation to 32 bits. -/
def u32 (n : Nat) : Nat := n % 4294967296

/-- 32-bit left rotation. -/
def rotl32 (x s : Nat) : Nat := u32 ((x <<< s) ||| (x >>> (32 - s)))

/-- The 64 MD5 sine-derived constants (RFC 1321). -/
def md5K : List Nat :=
  [0xd76aa478, 0xe8c7b756, 0x242070db, 0xc1bdceee,
   0xf57c0faf, 0x4787c62a, 0xa8304613, 0xfd469501,
   0x698098d8, 0x8b44f7af, 0xffff5bb1, 0x895cd7be,
   0x6b901122, 0xfd987193, 0xa679438e, 0x49b40821,
   0xf61e2562, 0xc040b340, 0x265e5a51, 0xe9b6c7aa,
   0xd62f105d, 0x02441453, 0xd8a1e681, 0xe7d3fbc8,
   0x21e1cde6, 0xc33707d6, 0xf4d50d87, 0x455a14ed,
   0xa9e3e905, 0xfcefa3f8, 0x676f02d9, 0x8d2a4c8a,
   0xfffa3942, 0x8771f681, 0x6d9d6122, 0xfde5380c,
   0xa4beea44, 0x4bdecfa9, 0xf6bb4b60, 0xbebfbc70,
   0x289b7ec6, 0xeaa127fa, 0xd4ef3085, 0x04881d05,
   0xd9d4d039, 0xe6db99e5, 0x1fa27cf8, 0xc4ac5665,
   0xf4292244, 0x432aff97, 0xab9423a7, 0xfc93a039,
   0x655b59c3, 0x8f0ccc92, 0xffeff47d, 0x85845dd1,
   0x6fa87e4f, 0xfe2ce6e0, 0xa3014314, 0x4e0811a1,
   0xf7537e82, 0xbd3af235, 0x2ad7d2bb, 0xeb86d391]

/-- The 64 MD5 per-round left-rotation amounts. -/
def md5S : List Nat :=
  [7, 12, 17, 22, 7, 12, 17, 22, 7, 12, 17, 22, 7, 12, 17, 22,
   5, 9, 14, 20, 5, 9, 14, 20, 5, 9, 14, 20, 5, 9, 14, 20,
   4, 11, 16, 23, 4, 11, 16, 23, 4, 11, 16, 23, 4, 11, 16, 23,
   6, 10, 15, 21, 6, 10, 15, 21, 6, 10, 15, 21, 6, 10, 15, 21]

/-- The MD5 round functions F, G, H, I selected by round index. -/
def md5F (i b c d : Nat) : Nat :=
  if i < 16 then (b &&& c) ||| ((4294967295 - b) &&& d)
  else if i < 32 then (d &&& b) ||| ((4294967295 - d) &&& c)
  else if i < 48 then b ^^^ c ^^^ d
  else c ^^^ (b ||| (4294967295 - d))

/-- The MD5 message-word index for round `i`. -/
def md5G (i : Nat) : Nat :=
  if i < 16 then i
  else if i < 32 then (5 * i + 1) % 16
  else if i < 48 then (3 * i + 5) % 16
  else (7 * i) % 16

/-- One MD5 round on the state (a, b, c, d); `m g` is the g-th little-endian
32-bit word of the current block. -/
def md5Step (m : Nat → Nat) (st : Nat × Nat × Nat × Nat) (i : Nat) :
    Nat × Nat × Nat × Nat :=
  let (a, b, c, d) := st
  let f := md5F i b c d
  let g := md5G i
  (d, u32 (b + rotl32 (u32 (a + f + md5K.getD i 0 + m g)) (md5S.getD i 0)), b, c)

/-- The g-th little-endian 32-bit word of a 64-byte block. -/
def md5Word (block : List Nat) (g : Nat) : Nat :=
  block.getD (4 * g) 0 + 256 * block.getD (4 * g + 1) 0 +
    65536 * block.getD (4 * g + 2) 0 + 16777216 * block.getD (4 * g + 3) 0

/-- Process one 64-byte block: 64 rounds, then add the result into the running
state modulo 2^32. -/
def md5ProcessBlock (h : Nat × Nat × Nat × Nat) (block : List Nat) :
    Nat × Nat × Nat × Nat :=
  let (a, b, c, d) := (List.range 64).foldl (md5Step (md5Word block)) h
  (u32 (h.1 + a), u32 (h.2.1 + b), u32 (h.2.2.1 + c), u32 (h.2.2.2 + d))

/-- MD5 padding: append 0x80, zero bytes up to 56 mod 64, then the bit length
as a little-endian 64-bit value. -/
def md5Pad (msg : List Nat) : List Nat :=
  let len := msg.length
  let zeros := (119 - len % 64) % 64
  msg ++ [128] ++ List.replicate zeros 0 ++
    ((List.range 8).map (fun i => ((len * 8) >>> (8 * i)) % 256))

/-- Worker for 64-byte chunking: `cur` holds the current chunk reversed,
`curLen` its length. -/
def chunksGo (cur : List Nat) (curLen : Nat) : List Nat → List (List Nat)
  | [] => if cur.isEmpty then [] else [cur.reverse]
  | b :: rest =>
    if curLen == 63 then (cur.reverse ++ [b]) :: chunksGo [] 0 rest
    else chunksGo (b :: cur) (curLen + 1) rest

/-- Split a byte list into 64-byte chunks (the padded MD5 message length is a
multiple of 64). -/
def chunks64 (l : List Nat) : List (List Nat) :=
  chunksGo [] 0 l

/-- A 32-bit word as four little-endian bytes. -/
def wordLE (w : Nat) : List Nat :=
  [w % 256, (w >>> 8) % 256, (w >>> 16) % 256, (w >>> 24) % 256]

/-- The 16-byte MD5 digest of a byte list. -/
def md5Digest (msg : List Nat) : List Nat :=
  let st := (chunks64 (md5Pad msg)).foldl md5ProcessBlock
    (0x67452301, 0xefcdab89, 0x98badcfe, 0x10325476)
  wordLE st.1 ++ wordLE st.2.1 ++ wordLE st.2.2.1 ++ wordLE st.2.2.2

/-- A hex digit as a lowercase character. -/
def hexDigit (n : Nat) : Char :=
  if n < 10 then Char.ofNat (48 + n) else Char.ofNat (87 + n)

/-- `hashlib`'s `.hexdigest()`: the digest bytes as lowercase hex, two
characters per byte. -/
def md5HexDigest (msg : List Nat) : String :=
  String.mk ((md5Digest msg).map (fun b => [hexDigit (b / 16), hexDigit (b % 16)])).flatten

namespace OpenSubsonic

/-- `OpenSubsonic._get_token`:
`md5(f"{password}{salt}".encode("utf-8")).hexdigest()`. -/
def _get_token (password : String) (salt : String) : String :=
  md5HexDigest (utf8Encode (password ++ salt))

/-- The per-instance auth/session state of an `OpenSubsonic` client: client
name, username, and the salt and token derived at construction time. -/
structure State where
  client : String
  username : String
  _salt : String
  _token : String

/-- `OpenSubsonic._get_params`: the fixed authentication parameter dict
`{u, t, s, v, c, f}` merged with the endpoint-specific keyword arguments
(`{**fixed, **kwargs}`). -/
def _get_params (self : State) (kwargs : List (String × String)) :
    List (String × String) :=
  dictUpdateAll
    [("u", self.username), ("t", self._token), ("s", self._salt),
     ("v", "1.16.1"), ("c", self.client), ("f", "json")]
    kwargs

/-- The observable HTTP GET request an endpoint method issues (the httpx
transport is the excluded external collaborator). -/
structure RequestSent where
  path : String
  params : List (String × String)

/-- `OpenSubsonic._authenticated_request_to`:
`self._client.get(f"/{endpoint}", params=self._get_params(**kwargs))`. -/
def _authenticated_request_to (self : State) (endpoint : String)
    (kwargs : List (String × String)) : RequestSent :=
  { path := "/" ++ endpoint, params := _get_params self kwargs }

/-- `OpenSubsonic.add_chat_message`: one authenticated GET with the message as
parameter. -/
def add_chat_message (self : State) (message : String) : RequestSent :=
  _authenticated_request_to self "addChatMessage" [("message", message)]

/-- `OpenSubsonic.change_password`: the single authenticated GET the method
issues, exactly as written in the source. -/
def change_password (self : State) (username : String) (password : String) :
    RequestSent :=
  _authenticated_request_to self "addChatMessage"
    [("username", username), ("password", password)]

/-- The httpx response `download` inspects: its headers, its textual body
(modelled at the decoded-JSON level) and its raw byte content. -/
structure HttpxResponse where
  headers : List (String × String)
  text : Json
  content : List Nat

/-- httpx header lookup is case-insensitive in the header name; a missing
header raises `KeyError`, modelled as `none`. -/
def httpxHeadersLookup (headers : List (String × String)) (name : String) :
    Option String :=
  match headers with
  | [] => Option.none
  | (k, v) :: rest =>
    if k.data.map Char.toLower = name.data.map Char.toLower then some v
    else httpxHeadersLookup rest name

/-- Python `sub in s` substring test, on character lists. -/
def listStartsWith : List Char → List Char → Bool
  | _, [] => true
  | [], _ :: _ => false
  | c :: cs, d :: ds => c = d && listStartsWith cs ds

/-- Worker for the substring test: try every suffix. -/
def listHasSub (l : List Char) (sub : List Char) : Bool :=
  match l with
  | [] => sub.isEmpty
  | c :: rest => listStartsWith (c :: rest) sub || listHasSub rest sub

/-- Python `sub in s` substring test. -/
def strContainsSub (s : String) (sub : String) : Bool :=
  listHasSub s.data sub.data

/-- The result of `OpenSubsonic.download`: raw media bytes on success, a
materialized `SubsonicResponse` when the server answered with an error
envelope. -/
inductive DownloadResult where
  | media (content : List Nat) : DownloadResult
  | envelope (inst : List (String × MValue)) : DownloadResult

/-- `OpenSubsonic.download`: reads the response's `Accept` header (raising
`KeyError` when the response has none); when it contains `"application/xml"`
the body text is parsed as a JSON error envelope into a `SubsonicResponse`,
otherwise `request.content` is returned unchanged. -/
def download (response : HttpxResponse) : Except MErr DownloadResult :=
  match httpxHeadersLookup response.headers "Accept" with
  | Option.none => Except.error (MErr.keyError "Accept")
  | some accept =>
    if strContainsSub accept "application/xml" then
      (subsonicResponseOfText response.text).map DownloadResult.envelope
    else
      Except.ok (DownloadResult.media response.content)

end OpenSubsonic

/-- Whether a decoded JSON value is an object (Python `isinstance(value, dict)`). -/
def jsonIsObj : Json → Bool
  | Json.obj _ => true
  | _ => false

/-- The antecedent of the download claim in the spec's words: the response
signals an XML/error content type, which the code observes as the response's
`Accept` header containing `"application/xml"`; a response without that header
signals nothing. -/
def specSignalsXmlContentType (response : OpenSubsonic.HttpxResponse) : Bool :=
  match OpenSubsonic.httpxHeadersLookup response.headers "Accept" with
  | some accept => OpenSubsonic.strContainsSub accept "application/xml"
  | Option.none => false

/-- The per-attribute step of `_Field.from_dict` as a function of the plain
lookup result: an absent key (`KeyError`) or a null value yields `None`, any
other value goes through the coercion branch. -/
def fieldsStep (variable_name : String) (want_type : String) :
    Option Json → Except MErr MValue
  | Option.none => Except.ok MValue.none
  | some Json.null => Except.ok MValue.none
  | some value => fieldsCoerceValue variable_name want_type value

/-- The per-attribute step of `_BaseResponse.from_dict` as a function of the
plain lookup result. -/
def responsesStep (variable_name : String) : Option Json → Except MErr MValue
  | Option.none => Except.ok MValue.none
  | some Json.null => Except.ok MValue.none
  | some (Json.obj objFields) =>
    match responsesGlobals (pyTitle (Responses._camel_to_snake_case variable_name)) with
    | Option.none =>
      Except.error (MErr.keyError (pyTitle (Responses._camel_to_snake_case variable_name)))
    | some cls =>
      (responsesFromDictAttrs cls.annNames objFields).map (MValue.record cls.clsName)
  | some value => Except.ok (MValue.raw value)

/-- Attribute access on a materialization result: `none` when materialization
failed or the attribute is unbound. -/
def okLookup (r : Except MErr (List (String × MValue))) (k : String) : Option MValue :=
  match r with
  | Except.ok inst => assocLookup inst k
  | Except.error _ => Option.none

/-- Whether a computation completed without raising. -/
def exceptOk {ε α : Type} : Except ε α → Bool
  | Except.ok _ => true
  | Except.error _ => false

/-- Every internal attribute name declared in the schema registry (all
fields.py record kinds and both responses.py record kinds). -/
def registryNames : List String :=
  (allAnns AlbumID3Field ++ allAnns ArtistID3Field ++ allAnns ChildField ++
    allAnns ContributorField ++ allAnns DirectoryField ++ allAnns DiscTitleField ++
    allAnns ErrorField ++ allAnns ItemDateField ++ allAnns ItemGenreField ++
    allAnns MusicFolderField ++ allAnns MusicFoldersField ++ allAnns RecordLabelField ++
    allAnns ReplayGainField).map Prod.fst ++
  SubsonicResponse.annNames ++ Error.annNames

/-- The certified lookup agrees with the plain association-list lookup. -/
theorem assocFind_map_val (l : List (String × Json)) (k : String) :
    (assocFind l k).map Subtype.val = assocLookup l k := by
  induction l with
  | nil => rfl
  | cons p rest ih =>
    obtain ⟨k', v⟩ := p
    unfold assocFind assocLookup
    by_cases h : k' = k
    · simp [h]
    · simp only [h, if_false, if_neg h]
      rw [← ih]
      cases hf : assocFind rest k with
      | none => rfl
      | some w => rfl

/-- The empty annotation list materializes to the empty instance. -/
theorem fieldsFromDictAttrs_nil (raw : List (String × Json)) :
    fieldsFromDictAttrs [] raw = Except.ok [] := by
  rw [fieldsFromDictAttrs]

/-- One step of the `_Field.from_dict` attribute loop, phrased through
`fieldsStep` and the plain lookup. -/
theorem fieldsFromDictAttrs_cons (vn wt : String) (rest : List (String × String))
    (raw : List (String × Json)) :
    fieldsFromDictAttrs ((vn, wt) :: rest) raw =
      match fieldsStep vn wt (assocLookup raw (Fields._snake_to_camel_case vn)) with
      | Except.error e => Except.error e
      | Except.ok v =>
        (fieldsFromDictAttrs rest raw).map (fun tl => (vn, v) :: tl) := by
  rw [fieldsFromDictAttrs]
  rw [← assocFind_map_val]
  cases hf : assocFind raw (Fields._snake_to_camel_case vn) with
  | none => simp [fieldsStep]
  | some w =>
    obtain ⟨v, hv⟩ := w
    cases v <;> simp [fieldsStep]

/-- `fieldsFromDict` unfolded to the attribute loop over the merged
annotations. -/
theorem fieldsFromDict_def (cls : FieldClass) (raw : List (String × Json)) :
    fieldsFromDict cls raw = fieldsFromDictAttrs (allAnns cls) raw := by
  rw [fieldsFromDict]

/-- `fieldsCoerceValue` in closed form: under PEP 563 only the dict branch and
the pass-through branch are reachable. -/
theorem fieldsCoerceValue_eval (vn wt : String) (v : Json) :
    fieldsCoerceValue vn wt v =
      match v with
      | Json.obj objFields =>
        match fieldsGetClass (upperFirst (Fields._snake_to_camel_case vn)) with
        | Option.none =>
          Except.error (MErr.keyError
            (upperFirst (Fields._snake_to_camel_case vn) ++ "Field"))
        | some cls => (fieldsFromDict cls objFields).map (MValue.record cls.clsName)
      | _ => Except.ok (MValue.raw v) := by
  cases v <;> simp [fieldsCoerceValue, typingGetOrigin, annStringEqClass]

/-- The empty annotation-name list materializes to the empty instance. -/
theorem responsesFromDictAttrs_nil (raw : List (String × Json)) :
    responsesFromDictAttrs [] raw = Except.ok [] := by
  rw [responsesFromDictAttrs]

/-- One step of the `_BaseResponse.from_dict` attribute loop, phrased through
`responsesStep` and the plain lookup. -/
theorem responsesFromDictAttrs_cons (vn : String) (rest : List String)
    (raw : List (String × Json)) :
    responsesFromDictAttrs (vn :: rest) raw =
      match responsesStep vn (assocLookup raw (Responses._snake_to_camel_case vn)) with
      | Except.error e => Except.error e
      | Except.ok v =>
        (responsesFromDictAttrs rest raw).map (fun tl => (vn, v) :: tl) := by
  rw [responsesFromDictAttrs]
  rw [← assocFind_map_val]
  cases hf : assocFind raw (Responses._snake_to_camel_case vn) with
  | none => simp [responsesStep]
  | some w =>
    obtain ⟨v, hv⟩ := w
    cases v <;> simp [responsesStep]

/-- `responsesFromDict` unfolded to the attribute loop. -/
theorem responsesFromDict_def (cls : ResponsesClass) (raw : List (String × Json)) :
    responsesFromDict cls raw = responsesFromDictAttrs cls.annNames raw := by
  rw [responsesFromDict]

/-- Inversion of a successful `_Field.from_dict` attribute step. -/
theorem fieldsFromDictAttrs_cons_ok {vn wt : String} {rest : List (String × String)}
    {raw : List (String × Json)} {inst : List (String × MValue)}
    (h : fieldsFromDictAttrs ((vn, wt) :: rest) raw = Except.ok inst) :
    ∃ v tl,
      fieldsStep vn wt (assocLookup raw (Fields._snake_to_camel_case vn)) = Except.ok v ∧
      fieldsFromDictAttrs rest raw = Except.ok tl ∧ inst = (vn, v) :: tl := by
  rw [fieldsFromDictAttrs_cons] at h
  cases hs : fieldsStep vn wt (assocLookup raw (Fields._snake_to_camel_case vn)) with
  | error e => rw [hs] at h; simp at h
  | ok v =>
    rw [hs] at h
    cases ht : fieldsFromDictAttrs rest raw with
    | error e => rw [ht] at h; simp [Except.map] at h
    | ok tl =>
      rw [ht] at h
      simp only [Except.map, Except.ok.injEq] at h
      exact ⟨v, tl, rfl, rfl, h.symm⟩

/-- Inversion of a successful `_BaseResponse.from_dict` attribute step. -/
theorem responsesFromDictAttrs_cons_ok {vn : String} {rest : List String}
    {raw : List (String × Json)} {inst : List (String × MValue)}
    (h : responsesFromDictAttrs (vn :: rest) raw = Except.ok inst) :
    ∃ v tl,
      responsesStep vn (assocLookup raw (Responses._snake_to_camel_case vn)) = Except.ok v ∧
      responsesFromDictAttrs rest raw = Except.ok tl ∧ inst = (vn, v) :: tl := by
  rw [responsesFromDictAttrs_cons] at h
  cases hs : responsesStep vn (assocLookup raw (Responses._snake_to_camel_case vn)) with
  | error e => rw [hs] at h; simp at h
  | ok v =>
    rw [hs] at h
    cases ht : responsesFromDictAttrs rest raw with
    | error e => rw [ht] at h; simp [Except.map] at h
    | ok tl =>
      rw [ht] at h
      simp only [Except.map, Except.ok.injEq] at h
      exact ⟨v, tl, rfl, rfl, h.symm⟩

/-- Association lookup on a non-empty list, as an equation. -/
theorem assocLookup_cons {α : Type} (k' : String) (v : α) (rest : List (String × α))
    (k : String) :
    assocLookup ((k', v) :: rest) k = if k' = k then some v else assocLookup rest k := rfl

/-- Looking up a removed key in the pruned mapping yields nothing. -/
theorem assocLookup_eraseKeys_of_mem {α : Type} {removed : List String} {k : String}
    (l : List (String × α)) (h : removed.contains k = true) :
    assocLookup (eraseKeys removed l) k = Option.none := by
  induction l with
  | nil => rfl
  | cons p rest ih =>
    obtain ⟨k', v⟩ := p
    unfold eraseKeys
    cases hr : removed.contains k' with
    | true =>
      simp only [if_true]
      exact ih
    | false =>
      simp only [Bool.false_eq_true, if_false]
      have hk : k' ≠ k := by
        intro e
        subst e
        rw [hr] at h
        cases h
      rw [assocLookup_cons]
      simp only [hk, if_false]
      exact ih

/-- Looking up a key that was not removed is unchanged by pruning. -/
theorem assocLookup_eraseKeys_of_not_mem {α : Type} {removed : List String} {k : String}
    (l : List (String × α)) (h : removed.contains k = false) :
    assocLookup (eraseKeys removed l) k = assocLookup l k := by
  induction l with
  | nil => rfl
  | cons p rest ih =>
    obtain ⟨k', v⟩ := p
    unfold eraseKeys
    cases hr : removed.contains k' with
    | true =>
      have hk : k' ≠ k := by
        intro e
        subst e
        rw [hr] at h
        cases h
      simp only [if_true]
      rw [ih, assocLookup_cons]
      simp only [hk, if_false]
    | false =>
      simp only [Bool.false_eq_true, if_false]
      rw [assocLookup_cons, assocLookup_cons]
      by_cases hk : k' = k
      · simp only [hk, if_true]
      · simp only [hk, if_false]
        exact ih

/-- Mapping over a materialization result preserves success. -/
theorem exceptOk_map {ε α β : Type} (e : Except ε α) (f : α → β) :
    exceptOk (e.map f) = exceptOk e := by
  cases e <;> rfl

/-- A successful computation is one that returns `ok`. -/
theorem exceptOk_iff {ε α : Type} (e : Except ε α) :
    exceptOk e = true ↔ ∃ a, e = Except.ok a := by
  cases e <;> simp [exceptOk]

/-- Pruning keys from the raw mapping never breaks a successful run of the
`_Field.from_dict` attribute loop. -/
theorem fieldsFromDictAttrs_erase_ok (anns : List (String × String)) :
    ∀ (raw : List (String × Json)) (removed : List String) (inst : List (String × MValue)),
      fieldsFromDictAttrs anns raw = Except.ok inst →
      exceptOk (fieldsFromDictAttrs anns (eraseKeys removed raw)) = true := by
  induction anns with
  | nil =>
    intro raw removed inst h
    rw [fieldsFromDictAttrs_nil]
    rfl
  | cons q rest ih =>
    intro raw removed inst h
    obtain ⟨vn, wt⟩ := q
    obtain ⟨v, tl, hs, ht, hinst⟩ := fieldsFromDictAttrs_cons_ok h
    have hrest := ih raw removed tl ht
    rw [fieldsFromDictAttrs_cons]
    cases hr : removed.contains (Fields._snake_to_camel_case vn) with
    | true =>
      rw [assocLookup_eraseKeys_of_mem raw hr]
      show exceptOk ((fieldsFromDictAttrs rest (eraseKeys removed raw)).map
        (fun tl => (vn, MValue.none) :: tl)) = true
      rw [exceptOk_map]
      exact hrest
    | false =>
      rw [assocLookup_eraseKeys_of_not_mem raw hr, hs]
      show exceptOk ((fieldsFromDictAttrs rest (eraseKeys removed raw)).map
        (fun tl => (vn, v) :: tl)) = true
      rw [exceptOk_map]
      exact hrest

/-- In a successful run of the `_Field.from_dict` attribute loop, every
declared attribute whose key is absent or null in the raw mapping is bound to
`None`. -/
theorem fieldsFromDictAttrs_null_none (anns : List (String × String)) :
    ∀ (raw : List (String × Json)) (inst : List (String × MValue)),
      fieldsFromDictAttrs anns raw = Except.ok inst →
      ∀ p ∈ anns,
        (assocLookup raw (Fields._snake_to_camel_case p.1) = Option.none ∨
          assocLookup raw (Fields._snake_to_camel_case p.1) = some Json.null) →
        assocLookup inst p.1 = some MValue.none := by
  induction anns with
  | nil =>
    intro raw inst h p hp hcond
    cases hp
  | cons q rest ih =>
    intro raw inst h p hp hcond
    obtain ⟨vn, wt⟩ := q
    obtain ⟨v, tl, hs, ht, hinst⟩ := fieldsFromDictAttrs_cons_ok h
    subst hinst
    rw [assocLookup_cons]
    by_cases hpv : vn = p.1
    · simp only [hpv, if_true]
      rw [← hpv] at hcond
      have hv : v = MValue.none := by
        rcases hcond with hc | hc <;> rw [hc] at hs <;>
          simpa [fieldsStep] using hs.symm
      rw [hv]
    · simp only [hpv, if_false]
      rcases List.mem_cons.mp hp with he | hpr
      · exact absurd (by rw [he]) hpv
      · exact ih raw tl ht p hpr hcond

/-- Pruning keys from the raw mapping never breaks a successful run of the
`_BaseResponse.from_dict` attribute loop. -/
theorem responsesFromDictAttrs_erase_ok (annNames : List String) :
    ∀ (raw : List (String × Json)) (removed : List String) (inst : List (String × MValue)),
      responsesFromDictAttrs annNames raw = Except.ok inst →
      exceptOk (responsesFromDictAttrs annNames (eraseKeys removed raw)) = true := by
  induction annNames with
  | nil =>
    intro raw removed inst h
    rw [responsesFromDictAttrs_nil]
    rfl
  | cons vn rest ih =>
    intro raw removed inst h
    obtain ⟨v, tl, hs, ht, hinst⟩ := responsesFromDictAttrs_cons_ok h
    have hrest := ih raw removed tl ht
    rw [responsesFromDictAttrs_cons]
    cases hr : removed.contains (Responses._snake_to_camel_case vn) with
    | true =>
      rw [assocLookup_eraseKeys_of_mem raw hr]
      show exceptOk ((responsesFromDictAttrs rest (eraseKeys removed raw)).map
        (fun tl => (vn, MValue.none) :: tl)) = true
      rw [exceptOk_map]
      exact hrest
    | false =>
      rw [assocLookup_eraseKeys_of_not_mem raw hr, hs]
      show exceptOk ((responsesFromDictAttrs rest (eraseKeys removed raw)).map
        (fun tl => (vn, v) :: tl)) = true
      rw [exceptOk_map]
      exact hrest

/-- In a successful run of the `_BaseResponse.from_dict` attribute loop, every
declared attribute whose key is absent or null in the raw mapping is bound to
`None`. -/
theorem responsesFromDictAttrs_null_none (annNames : List String) :
    ∀ (raw : List (String × Json)) (inst : List (String × MValue)),
      responsesFromDictAttrs annNames raw = Except.ok inst →
      ∀ nm ∈ annNames,
        (assocLookup raw (Responses._snake_to_camel_case nm) = Option.none ∨
          assocLookup raw (Responses._snake_to_camel_case nm) = some Json.null) →
        assocLookup inst nm = some MValue.none := by
  induction annNames with
  | nil =>
    intro raw inst h nm hp hcond
    cases hp
  | cons vn rest ih =>
    intro raw inst h nm hp hcond
    obtain ⟨v, tl, hs, ht, hinst⟩ := responsesFromDictAttrs_cons_ok h
    subst hinst
    rw [assocLookup_cons]
    by_cases hpv : vn = nm
    · simp only [hpv, if_true]
      rw [← hpv] at hcond
      have hv : v = MValue.none := by
        rcases hcond with hc | hc <;> rw [hc] at hs <;>
          simpa [responsesStep] using hs.symm
      rw [hv]
    · simp only [hpv, if_false]
      rcases List.mem_cons.mp hp with he | hpr
      · exact absurd (by rw [he]) hpv
      · exact ih raw tl ht nm hpr hcond

/-- When no raw value is a JSON object, the `_Field.from_dict` attribute loop
always succeeds: absent and null keys become `None` and every other value
passes through the (dead) coercion chain unchanged. -/
theorem fieldsFromDictAttrs_ok_of_nonObj (anns : List (String × String)) :
    ∀ (raw : List (String × Json)),
      (∀ k v, assocLookup raw k = some v → jsonIsObj v = false) →
      exceptOk (fieldsFromDictAttrs anns raw) = true := by
  induction anns with
  | nil =>
    intro raw h
    rw [fieldsFromDictAttrs_nil]
    rfl
  | cons q rest ih =>
    intro raw h
    obtain ⟨vn, wt⟩ := q
    rw [fieldsFromDictAttrs_cons]
    have hstep : ∃ v, fieldsStep vn wt
        (assocLookup raw (Fields._snake_to_camel_case vn)) = Except.ok v := by
      cases hl : assocLookup raw (Fields._snake_to_camel_case vn) with
      | none => exact ⟨MValue.none, rfl⟩
      | some w =>
        have hw := h _ w hl
        cases w with
        | null => exact ⟨MValue.none, rfl⟩
        | bool b => exact ⟨MValue.raw (Json.bool b), by simp [fieldsStep, fieldsCoerceValue_eval]⟩
        | num n => exact ⟨MValue.raw (Json.num n), by simp [fieldsStep, fieldsCoerceValue_eval]⟩
        | str s => exact ⟨MValue.raw (Json.str s), by simp [fieldsStep, fieldsCoerceValue_eval]⟩
        | arr xs => exact ⟨MValue.raw (Json.arr xs), by simp [fieldsStep, fieldsCoerceValue_eval]⟩
        | obj fs => exact absurd hw (by simp [jsonIsObj])
    obtain ⟨v, hv⟩ := hstep
    rw [hv]
    show exceptOk ((fieldsFromDictAttrs rest raw).map (fun tl => (vn, v) :: tl)) = true
    rw [exceptOk_map]
    exact ih raw h

/-- In a successful run of the `_Field.from_dict` attribute loop, the value
bound to the first declared occurrence of an attribute is exactly the step
result for its looked-up raw value. -/
theorem fieldsFromDictAttrs_attr (anns : List (String × String)) :
    ∀ (raw : List (String × Json)) (inst : List (String × MValue)) (vn wt : String),
      fieldsFromDictAttrs anns raw = Except.ok inst →
      assocLookup anns vn = some wt →
      ∃ v, fieldsStep vn wt (assocLookup raw (Fields._snake_to_camel_case vn)) =
          Except.ok v ∧ assocLookup inst vn = some v := by
  induction anns with
  | nil =>
    intro raw inst vn wt h hann
    cases hann
  | cons q rest ih =>
    intro raw inst vn wt h hann
    obtain ⟨vn', wt'⟩ := q
    obtain ⟨v, tl, hs, ht, hinst⟩ := fieldsFromDictAttrs_cons_ok h
    subst hinst
    rw [assocLookup_cons] at hann
    rw [assocLookup_cons]
    by_cases hv : vn' = vn
    · simp only [hv, if_true] at hann ⊢
      obtain rfl : wt = wt' := by
        injection hann with e
        exact e.symm
      exact ⟨v, by rw [← hv]; exact hs, rfl⟩
    · simp only [hv, if_false] at hann ⊢
      exact ih raw tl vn wt ht hann

/-- `dictUpdate` keys: the old keys and the inserted key. -/
theorem mem_keys_dictUpdate {α : Type} (l : List (String × α)) (k k' : String) (v : α)
    (h : k' ∈ l.map Prod.fst ∨ k' = k) : k' ∈ (dictUpdate l k v).map Prod.fst := by
  induction l with
  | nil =>
    rcases h with h | h
    · cases h
    · simp [dictUpdate, h]
  | cons p rest ih =>
    obtain ⟨k0, v0⟩ := p
    unfold dictUpdate
    by_cases hk : k0 = k
    · simp only [hk, if_true]
      rcases h with h | h
      · rw [List.map_cons] at h
        rcases List.mem_cons.mp h with h0 | h0
        · simp [← hk, h0]
        · simp [h0]
      · simp [h]
    · simp only [hk, if_false]
      rcases h with h | h
      · rw [List.map_cons] at h
        rcases List.mem_cons.mp h with h0 | h0
        · simp [h0]
        · simp only [List.map_cons, List.mem_cons]
          exact Or.inr (ih (Or.inl h0))
      · simp only [List.map_cons, List.mem_cons]
        exact Or.inr (ih (Or.inr h))

/-- `dictUpdateAll` keys: the old keys and the merged entries' keys. -/
theorem mem_keys_dictUpdateAll {α : Type} (entries : List (String × α)) :
    ∀ (l : List (String × α)) (k' : String),
      (k' ∈ l.map Prod.fst ∨ k' ∈ entries.map Prod.fst) →
      k' ∈ (dictUpdateAll l entries).map Prod.fst := by
  induction entries with
  | nil =>
    intro l k' h
    rcases h with h | h
    · exact h
    · cases h
  | cons e es ih =>
    intro l k' h
    show k' ∈ (dictUpdateAll (dictUpdate l e.1 e.2) es).map Prod.fst
    apply ih
    rcases h with h | h
    · exact Or.inl (mem_keys_dictUpdate l e.1 k' e.2 (Or.inl h))
    · rw [List.map_cons] at h
      rcases List.mem_cons.mp h with h0 | h0
      · exact Or.inl (mem_keys_dictUpdate l e.1 k' e.2 (Or.inr h0))
      · exact Or.inr h0

/-- Keys survive later `dict.update` folds. -/
theorem mem_keys_foldl_dictUpdateAll {α : Type} (ls : List (List (String × α))) :
    ∀ (init : List (String × α)) (k' : String),
      k' ∈ init.map Prod.fst →
      k' ∈ (ls.foldl dictUpdateAll init).map Prod.fst := by
  induction ls with
  | nil =>
    intro init k' h
    exact h
  | cons l0 ls' ih =>
    intro init k' h
    exact ih (dictUpdateAll init l0) k' (mem_keys_dictUpdateAll l0 init k' (Or.inl h))

/-- Every annotation name of every class on the MRO survives into the merged
annotation dict. -/
theorem mem_keys_allAnns (c : FieldClass) (entry : List (String × String))
    (he : entry ∈ c.mroAnns) (p : String × String) (hp : p ∈ entry) :
    p.1 ∈ (allAnns c).map Prod.fst := by
  unfold allAnns
  obtain ⟨pre, post, hsplit⟩ := List.append_of_mem he
  rw [hsplit, List.foldl_append, List.foldl_cons]
  apply mem_keys_foldl_dictUpdateAll
  apply mem_keys_dictUpdateAll
  exact Or.inr (List.mem_map_of_mem Prod.fst hp)

/-- The attribute loop binds exactly the declared attribute names, in order. -/
theorem fieldsFromDictAttrs_map_fst (anns : List (String × String)) :
    ∀ (raw : List (String × Json)) (inst : List (String × MValue)),
      fieldsFromDictAttrs anns raw = Except.ok inst →
      inst.map Prod.fst = anns.map Prod.fst := by
  induction anns with
  | nil =>
    intro raw inst h
    rw [fieldsFromDictAttrs_nil] at h
    cases h
    rfl
  | cons q rest ih =>
    intro raw inst h
    obtain ⟨vn, wt⟩ := q
    obtain ⟨v, tl, hs, ht, hinst⟩ := fieldsFromDictAttrs_cons_ok h
    subst hinst
    simp only [List.map_cons]
    rw [ih raw tl ht]

/-- A key among the bound names can be looked up. -/
theorem assocLookup_isSome_of_mem_keys {α : Type} (l : List (String × α)) (k : String)
    (h : k ∈ l.map Prod.fst) : (assocLookup l k).isSome = true := by
  induction l with
  | nil => cases h
  | cons p rest ih =>
    obtain ⟨k0, v0⟩ := p
    rw [assocLookup_cons]
    by_cases hk : k0 = k
    · simp [hk]
    · simp only [hk, if_false]
      rw [List.map_cons] at h
      rcases List.mem_cons.mp h with h0 | h0
      · exact absurd h0.symm hk
      · exact ih h0

/-- Key conversions actually performed on the concrete attribute names used in
the evaluations below, each checked by kernel computation. -/
theorem rconv_status : Responses._snake_to_camel_case "status" = "status" := rfl

theorem rconv_version : Responses._snake_to_camel_case "version" = "version" := rfl

theorem rconv_type : Responses._snake_to_camel_case "type" = "type" := rfl

theorem rconv_server_version :
    Responses._snake_to_camel_case "server_version" = "serverVersion" := rfl

theorem rconv_open_subsonic :
    Responses._snake_to_camel_case "open_subsonic" = "openSubsonic" := rfl

theorem rconv_error : Responses._snake_to_camel_case "error" = "error" := rfl

theorem rconv_code : Responses._snake_to_camel_case "code" = "code" := rfl

theorem rconv_message : Responses._snake_to_camel_case "message" = "message" := rfl

theorem rconv_help_url : Responses._snake_to_camel_case "help_url" = "helpUrl" := rfl

theorem fconv_code : Fields._snake_to_camel_case "code" = "code" := rfl

theorem fconv_message : Fields._snake_to_camel_case "message" = "message" := rfl

theorem fconv_help_url : Fields._snake_to_camel_case "help_url" = "helpUrl" := rfl

theorem fconv_disc : Fields._snake_to_camel_case "disc" = "disc" := rfl

theorem fconv_title : Fields._snake_to_camel_case "title" = "title" := rfl

/-- Materializing the envelope from `{"status": "ok", "version": "1.16.1"}`:
status and version are populated, all other declared attributes become None. -/
theorem conc_subsonic_ok :
    responsesFromDict SubsonicResponse
        [("status", Json.str "ok"), ("version", Json.str "1.16.1")] =
      Except.ok [("status", MValue.raw (Json.str "ok")),
        ("version", MValue.raw (Json.str "1.16.1")), ("type", MValue.none),
        ("server_version", MValue.none), ("open_subsonic", MValue.none),
        ("error", MValue.none)] := by
  rw [responsesFromDict_def]
  show responsesFromDictAttrs
    ["status", "version", "type", "server_version", "open_subsonic", "error"] _ = _
  rw [responsesFromDictAttrs_cons, rconv_status,
    show assocLookup [("status", Json.str "ok"), ("version", Json.str "1.16.1")] "status" =
      some (Json.str "ok") from rfl]
  rw [responsesFromDictAttrs_cons, rconv_version,
    show assocLookup [("status", Json.str "ok"), ("version", Json.str "1.16.1")] "version" =
      some (Json.str "1.16.1") from rfl]
  rw [responsesFromDictAttrs_cons, rconv_type,
    show assocLookup [("status", Json.str "ok"), ("version", Json.str "1.16.1")] "type" =
      Option.none from rfl]
  rw [responsesFromDictAttrs_cons, rconv_server_version,
    show assocLookup [("status", Json.str "ok"), ("version", Json.str "1.16.1")]
      "serverVersion" = Option.none from rfl]
  rw [responsesFromDictAttrs_cons, rconv_open_subsonic,
    show assocLookup [("status", Json.str "ok"), ("version", Json.str "1.16.1")]
      "openSubsonic" = Option.none from rfl]
  rw [responsesFromDictAttrs_cons, rconv_error,
    show assocLookup [("status", Json.str "ok"), ("version", Json.str "1.16.1")] "error" =
      Option.none from rfl]
  rw [responsesFromDictAttrs_nil]
  rfl

/-- Materializing the success envelope
`{"subsonic-response": {"status": "ok", "version": "1.16.1"}}` from its body. -/
theorem conc_envelope_ok :
    subsonicResponseOfText (Json.obj [("subsonic-response",
        Json.obj [("status", Json.str "ok"), ("version", Json.str "1.16.1")])]) =
      Except.ok [("status", MValue.raw (Json.str "ok")),
        ("version", MValue.raw (Json.str "1.16.1")), ("type", MValue.none),
        ("server_version", MValue.none), ("open_subsonic", MValue.none),
        ("error", MValue.none)] := by
  rw [show subsonicResponseOfText (Json.obj [("subsonic-response",
        Json.obj [("status", Json.str "ok"), ("version", Json.str "1.16.1")])]) =
      responsesFromDict SubsonicResponse
        [("status", Json.str "ok"), ("version", Json.str "1.16.1")] from rfl]
  exact conc_subsonic_ok

/-- Materializing the failure envelope carrying
`{"code": 40, "message": "Wrong username or password"}`: the error attribute
becomes a nested `Error` record instance. -/
theorem conc_envelope_fail :
    subsonicResponseOfText (Json.obj [("subsonic-response",
        Json.obj [("status", Json.str "failure"), ("version", Json.str "1.16.1"),
          ("error", Json.obj [("code", Json.num 40),
            ("message", Json.str "Wrong username or password")])])]) =
      Except.ok [("status", MValue.raw (Json.str "failure")),
        ("version", MValue.raw (Json.str "1.16.1")), ("type", MValue.none),
        ("server_version", MValue.none), ("open_subsonic", MValue.none),
        ("error", MValue.record "Error" [("code", MValue.raw (Json.num 40)),
          ("message", MValue.raw (Json.str "Wrong username or password")),
          ("help_url", MValue.none)])] := by
  rw [show subsonicResponseOfText (Json.obj [("subsonic-response",
        Json.obj [("status", Json.str "failure"), ("version", Json.str "1.16.1"),
          ("error", Json.obj [("code", Json.num 40),
            ("message", Json.str "Wrong username or password")])])]) =
      responsesFromDict SubsonicResponse
        [("status", Json.str "failure"), ("version", Json.str "1.16.1"),
          ("error", Json.obj [("code", Json.num 40),
            ("message", Json.str "Wrong username or password")])] from rfl]
  rw [responsesFromDict_def]
  show responsesFromDictAttrs
    ["status", "version", "type", "server_version", "open_subsonic", "error"] _ = _
  rw [responsesFromDictAttrs_cons, rconv_status,
    show assocLookup [("status", Json.str "failure"), ("version", Json.str "1.16.1"),
        ("error", Json.obj [("code", Json.num 40),
          ("message", Json.str "Wrong username or password")])] "status" =
      some (Json.str "failure") from rfl]
  rw [responsesFromDictAttrs_cons, rconv_version,
    show assocLookup [("status", Json.str "failure"), ("version", Json.str "1.16.1"),
        ("error", Json.obj [("code", Json.num 40),
          ("message", Json.str "Wrong username or password")])] "version" =
      some (Json.str "1.16.1") from rfl]
  rw [responsesFromDictAttrs_cons, rconv_type,
    show assocLookup [("status", Json.str "failure"), ("version", Json.str "1.16.1"),
        ("error", Json.obj [("code", Json.num 40),
          ("message", Json.str "Wrong username or password")])] "type" =
      Option.none from rfl]
  rw [responsesFromDictAttrs_cons, rconv_server_version,
    show assocLookup [("status", Json.str "failure"), ("version", Json.str "1.16.1"),
        ("error", Json.obj [("code", Json.num 40),
          ("message", Json.str "Wrong username or password")])] "serverVersion" =
      Option.none from rfl]
  rw [responsesFromDictAttrs_cons, rconv_open_subsonic,
    show assocLookup [("status", Json.str "failure"), ("version", Json.str "1.16.1"),
        ("error", Json.obj [("code", Json.num 40),
          ("message", Json.str "Wrong username or password")])] "openSubsonic" =
      Option.none from rfl]
  rw [responsesFromDictAttrs_cons, rconv_error,
    show assocLookup [("status", Json.str "failure"), ("version", Json.str "1.16.1"),
        ("error", Json.obj [("code", Json.num 40),
          ("message", Json.str "Wrong username or password")])] "error" =
      some (Json.obj [("code", Json.num 40),
        ("message", Json.str "Wrong username or password")]) from rfl]
  rw [show responsesStep "error" (some (Json.obj [("code", Json.num 40),
        ("message", Json.str "Wrong username or password")])) =
      (responsesFromDictAttrs ["code", "message", "help_url"]
        [("code", Json.num 40),
          ("message", Json.str "Wrong username or password")]).map
        (MValue.record "Error") from rfl]
  rw [responsesFromDictAttrs_cons, rconv_code,
    show assocLookup [("code", Json.num 40),
        ("message", Json.str "Wrong username or password")] "code" =
      some (Json.num 40) from rfl]
  rw [responsesFromDictAttrs_cons, rconv_message,
    show assocLookup [("code", Json.num 40),
        ("message", Json.str "Wrong username or password")] "message" =
      some (Json.str "Wrong username or password") from rfl]
  rw [responsesFromDictAttrs_cons, rconv_help_url,
    show assocLookup [("code", Json.num 40),
        ("message", Json.str "Wrong username or password")] "helpUrl" =
      Option.none from rfl]
  rw [responsesFromDictAttrs_nil]
  rw [responsesFromDictAttrs_nil]
  rfl

/-- Materializing `ErrorField` from `{"code": 40}`: the present attribute is
stored raw, the absent ones become None. -/
theorem conc_errorfield :
    fieldsFromDict ErrorField [("code", Json.num 40)] =
      Except.ok [("code", MValue.raw (Json.num 40)), ("message", MValue.none),
        ("help_url", MValue.none)] := by
  rw [fieldsFromDict_def]
  show fieldsFromDictAttrs
    [("code", "Literal[0, 10, 20, 30, 40, 41, 42, 43, 44, 50, 60, 70]"),
      ("message", "str | None"), ("help_url", "str | None")] _ = _
  rw [fieldsFromDictAttrs_cons, fconv_code,
    show assocLookup [("code", Json.num 40)] "code" = some (Json.num 40) from rfl]
  rw [show fieldsStep "code" "Literal[0, 10, 20, 30, 40, 41, 42, 43, 44, 50, 60, 70]"
      (some (Json.num 40)) = Except.ok (MValue.raw (Json.num 40)) by
    simp [fieldsStep, fieldsCoerceValue_eval]]
  rw [fieldsFromDictAttrs_cons, fconv_message,
    show assocLookup [("code", Json.num 40)] "message" = Option.none from rfl]
  rw [fieldsFromDictAttrs_cons, fconv_help_url,
    show assocLookup [("code", Json.num 40)] "helpUrl" = Option.none from rfl]
  rw [fieldsFromDictAttrs_nil]
  rfl

/-- Materializing `DiscTitleField` from the empty mapping: every declared
attribute becomes None. -/
theorem conc_disctitle :
    fieldsFromDict DiscTitleField [] =
      Except.ok [("disc", MValue.none), ("title", MValue.none)] := by
  rw [fieldsFromDict_def]
  show fieldsFromDictAttrs [("disc", "int"), ("title", "str")] _ = _
  rw [fieldsFromDictAttrs_cons, fconv_disc,
    show assocLookup ([] : List (String × Json)) "disc" = Option.none from rfl]
  rw [fieldsFromDictAttrs_cons, fconv_title,
    show assocLookup ([] : List (String × Json)) "title" = Option.none from rfl]
  rw [fieldsFromDictAttrs_nil]
  rfl

/-- C1: for every record kind (field classes and response classes alike) and
every raw mapping on which materialization succeeds, removing an arbitrary
subset of keys still makes `from_dict` succeed without raising, and every
declared attribute whose key is absent from the pruned mapping, or present
with a null value, is bound to None on the resulting instance. -/
theorem C1_materialization_total_over_absence :
    (∀ (cls : FieldClass) (raw : List (String × Json)) (removed : List String)
        (inst : List (String × MValue)),
        fieldsFromDict cls raw = Except.ok inst →
        exceptOk (fieldsFromDict cls (eraseKeys removed raw)) = true ∧
        ∀ p ∈ allAnns cls,
          (assocLookup (eraseKeys removed raw) (Fields._snake_to_camel_case p.1) =
              Option.none ∨
            assocLookup (eraseKeys removed raw) (Fields._snake_to_camel_case p.1) =
              some Json.null) →
          okLookup (fieldsFromDict cls (eraseKeys removed raw)) p.1 = some MValue.none)
    ∧
    (∀ (cls : ResponsesClass) (raw : List (String × Json)) (removed : List String)
        (inst : List (String × MValue)),
        responsesFromDict cls raw = Except.ok inst →
        exceptOk (responsesFromDict cls (eraseKeys removed raw)) = true ∧
        ∀ nm ∈ cls.annNames,
          (assocLookup (eraseKeys removed raw) (Responses._snake_to_camel_case nm) =
              Option.none ∨
            assocLookup (eraseKeys removed raw) (Responses._snake_to_camel_case nm) =
              some Json.null) →
          okLookup (responsesFromDict cls (eraseKeys removed raw)) nm = some MValue.none) := by
  constructor
  · intro cls raw removed inst h
    rw [fieldsFromDict_def] at h
    rw [fieldsFromDict_def]
    have hok := fieldsFromDictAttrs_erase_ok (allAnns cls) raw removed inst h
    refine ⟨hok, ?_⟩
    intro p hp hcond
    obtain ⟨inst', hinst'⟩ := (exceptOk_iff _).mp hok
    rw [hinst']
    show assocLookup inst' p.1 = some MValue.none
    exact fieldsFromDictAttrs_null_none (allAnns cls) (eraseKeys removed raw) inst'
      hinst' p hp hcond
  · intro cls raw removed inst h
    rw [responsesFromDict_def] at h
    rw [responsesFromDict_def]
    have hok := responsesFromDictAttrs_erase_ok cls.annNames raw removed inst h
    refine ⟨hok, ?_⟩
    intro nm hp hcond
    obtain ⟨inst', hinst'⟩ := (exceptOk_iff _).mp hok
    rw [hinst']
    show assocLookup inst' nm = some MValue.none
    exact responsesFromDictAttrs_null_none cls.annNames (eraseKeys removed raw) inst'
      hinst' nm hp hcond

/-- Witness for C1: `ErrorField` materializes from `{"code": 40}`; pruning the
`code` key still succeeds and binds `code` to None. -/
theorem C1_witness :
    exceptOk (fieldsFromDict ErrorField (eraseKeys ["code"] [("code", Json.num 40)])) =
      true ∧
    okLookup (fieldsFromDict ErrorField (eraseKeys ["code"] [("code", Json.num 40)]))
      "code" = some MValue.none := by
  have h := C1_materialization_total_over_absence.1 ErrorField [("code", Json.num 40)]
    ["code"] _ conc_errorfield
  exact ⟨h.1, h.2 ("code", "Literal[0, 10, 20, 30, 40, 41, 42, 43, 44, 50, 60, 70]")
    (by decide) (Or.inl rfl)⟩

/-- C2: materializing a field record kind resolves and binds every attribute
declared anywhere on its MRO (the specializing class and every more general
class it extends), and the common envelope's own status and version attributes
are populated from the raw mapping when the envelope is materialized. -/
theorem C2_inherited_attributes_populated :
    (∀ (cls : FieldClass) (raw : List (String × Json)) (inst : List (String × MValue)),
        fieldsFromDict cls raw = Except.ok inst →
        ∀ entry ∈ cls.mroAnns, ∀ p ∈ entry, (assocLookup inst p.1).isSome = true)
    ∧ responsesFromDict SubsonicResponse
        [("status", Json.str "ok"), ("version", Json.str "1.16.1")] =
      Except.ok [("status", MValue.raw (Json.str "ok")),
        ("version", MValue.raw (Json.str "1.16.1")), ("type", MValue.none),
        ("server_version", MValue.none), ("open_subsonic", MValue.none),
        ("error", MValue.none)] := by
  constructor
  · intro cls raw inst h entry he p hp
    rw [fieldsFromDict_def] at h
    apply assocLookup_isSome_of_mem_keys
    rw [fieldsFromDictAttrs_map_fst (allAnns cls) raw inst h]
    exact mem_keys_allAnns cls entry he p hp
  · exact conc_subsonic_ok

/-- Witness for C2: the `disc` attribute declared on `DiscTitleField`'s MRO is
bound after materializing from the empty mapping. -/
theorem C2_witness :
    (assocLookup [("disc", MValue.none), ("title", MValue.none)] "disc").isSome = true :=
  C2_inherited_attributes_populated.1 DiscTitleField [] _ conc_disctitle
    [("disc", "int"), ("title", "str")] (by decide) ("disc", "int") (by decide)

/-- C3 (code divergence): materializing `ChildField` from
`{"genres": [{"name": "Rock"}, {"name": "Pop"}, {"name": "Jazz"}]}` succeeds
but binds `genres` to the raw JSON array itself — the three elements are NOT
materialized into `ItemGenreField` child instances, because the
`origin is list` branch of `from_dict` never fires on PEP 563 string
annotations. -/
theorem C3_list_field_passes_through_raw :
    exceptOk (fieldsFromDict ChildField [("genres", Json.arr
        [Json.obj [("name", Json.str "Rock")], Json.obj [("name", Json.str "Pop")],
          Json.obj [("name", Json.str "Jazz")]])]) = true ∧
    okLookup (fieldsFromDict ChildField [("genres", Json.arr
        [Json.obj [("name", Json.str "Rock")], Json.obj [("name", Json.str "Pop")],
          Json.obj [("name", Json.str "Jazz")]])]) "genres" =
      some (MValue.raw (Json.arr
        [Json.obj [("name", Json.str "Rock")], Json.obj [("name", Json.str "Pop")],
          Json.obj [("name", Json.str "Jazz")]])) := by
  have hnonobj : ∀ k v, assocLookup [("genres", Json.arr
      [Json.obj [("name", Json.str "Rock")], Json.obj [("name", Json.str "Pop")],
        Json.obj [("name", Json.str "Jazz")]])] k = some v → jsonIsObj v = false := by
    intro k v hl
    rw [assocLookup_cons] at hl
    split at hl
    · injection hl with e
      subst e
      rfl
    · exact Option.noConfusion hl
  have hok : exceptOk (fieldsFromDict ChildField [("genres", Json.arr
      [Json.obj [("name", Json.str "Rock")], Json.obj [("name", Json.str "Pop")],
        Json.obj [("name", Json.str "Jazz")]])]) = true := by
    rw [fieldsFromDict_def]
    exact fieldsFromDictAttrs_ok_of_nonObj _ _ hnonobj
  obtain ⟨inst, hinst⟩ := (exceptOk_iff _).mp hok
  have hinst' : fieldsFromDictAttrs (allAnns ChildField) [("genres", Json.arr
      [Json.obj [("name", Json.str "Rock")], Json.obj [("name", Json.str "Pop")],
        Json.obj [("name", Json.str "Jazz")]])] = Except.ok inst := by
    rw [← fieldsFromDict_def]
    exact hinst
  obtain ⟨v, hstep, hlook⟩ := fieldsFromDictAttrs_attr (allAnns ChildField) _ inst
    "genres" "list[ItemGenreField] | None" hinst' rfl
  have hv : v = MValue.raw (Json.arr
      [Json.obj [("name", Json.str "Rock")], Json.obj [("name", Json.str "Pop")],
        Json.obj [("name", Json.str "Jazz")]]) := by
    rw [show Fields._snake_to_camel_case "genres" = "genres" from rfl,
      show assocLookup [("genres", Json.arr
          [Json.obj [("name", Json.str "Rock")], Json.obj [("name", Json.str "Pop")],
            Json.obj [("name", Json.str "Jazz")]])] "genres" =
        some (Json.arr
          [Json.obj [("name", Json.str "Rock")], Json.obj [("name", Json.str "Pop")],
            Json.obj [("name", Json.str "Jazz")]]) from rfl] at hstep
    rw [show fieldsStep "genres" "list[ItemGenreField] | None" (some (Json.arr
        [Json.obj [("name", Json.str "Rock")], Json.obj [("name", Json.str "Pop")],
          Json.obj [("name", Json.str "Jazz")]])) =
      Except.ok (MValue.raw (Json.arr
        [Json.obj [("name", Json.str "Rock")], Json.obj [("name", Json.str "Pop")],
          Json.obj [("name", Json.str "Jazz")]])) by
        simp [fieldsStep, fieldsCoerceValue_eval]] at hstep
    injection hstep with e
    exact e.symm
  refine ⟨hok, ?_⟩
  rw [hinst]
  show assocLookup inst "genres" = _
  rw [hlook, hv]

/-- C4 (code divergence): materializing `ChildField` from `{"duration": 125}`
succeeds but stores the plain integer 125 on the duration attribute — no
conversion to a 125-second duration happens, because the
`base_type == timedelta` branch of `from_dict` never fires on PEP 563 string
annotations. -/
theorem C4_duration_not_converted :
    exceptOk (fieldsFromDict ChildField [("duration", Json.num 125)]) = true ∧
    okLookup (fieldsFromDict ChildField [("duration", Json.num 125)]) "duration" =
      some (MValue.raw (Json.num 125)) ∧
    okLookup (fieldsFromDict ChildField [("duration", Json.num 125)]) "duration" ≠
      some (MValue.timedelta 125) := by
  have hnonobj : ∀ k v, assocLookup [("duration", Json.num 125)] k = some v →
      jsonIsObj v = false := by
    intro k v hl
    rw [assocLookup_cons] at hl
    split at hl
    · injection hl with e
      subst e
      rfl
    · exact Option.noConfusion hl
  have hok : exceptOk (fieldsFromDict ChildField [("duration", Json.num 125)]) = true := by
    rw [fieldsFromDict_def]
    exact fieldsFromDictAttrs_ok_of_nonObj _ _ hnonobj
  obtain ⟨inst, hinst⟩ := (exceptOk_iff _).mp hok
  have hinst' : fieldsFromDictAttrs (allAnns ChildField) [("duration", Json.num 125)] =
      Except.ok inst := by
    rw [← fieldsFromDict_def]
    exact hinst
  obtain ⟨v, hstep, hlook⟩ := fieldsFromDictAttrs_attr (allAnns ChildField) _ inst
    "duration" "timedelta | None" hinst' rfl
  have hv : v = MValue.raw (Json.num 125) := by
    rw [show Fields._snake_to_camel_case "duration" = "duration" from rfl,
      show assocLookup [("duration", Json.num 125)] "duration" = some (Json.num 125)
        from rfl] at hstep
    rw [show fieldsStep "duration" "timedelta | None" (some (Json.num 125)) =
      Except.ok (MValue.raw (Json.num 125)) by
        simp [fieldsStep, fieldsCoerceValue_eval]] at hstep
    injection hstep with e
    exact e.symm
  refine ⟨hok, ?_, ?_⟩
  · rw [hinst]
    show assocLookup inst "duration" = _
    rw [hlook, hv]
  · rw [hinst]
    show assocLookup inst "duration" ≠ _
    rw [hlook, hv]
    simp

/-- C5 (code divergence): the fields.py external-to-internal converter maps
`"musicBrainzId"` to the letter-split `"music_brainz_id"`, not to the joined
`"musicbrainz_id"` under which the schema declares the attribute — the
`replace` call's result is discarded. -/
theorem C5_musicbrainz_not_special_cased :
    Fields._camel_to_snake_case "musicBrainzId" = "music_brainz_id" ∧
    "music_brainz_id" ≠ "musicbrainz_id" ∧
    "musicbrainz_id" ∈ registryNames := by
  refine ⟨rfl, by decide, by decide⟩

/-- C6: for every internal attribute name declared in the schema registry,
converting to the external camelCase form and back yields the original name,
for both modules' converter pairs. -/
theorem C6_case_conversion_roundtrip :
    ∀ name ∈ registryNames,
      Fields._camel_to_snake_case (Fields._snake_to_camel_case name) = name ∧
      Responses._camel_to_snake_case (Responses._snake_to_camel_case name) = name := by
  decide

/-- Witness for C6 at the registry name `musicbrainz_id`. -/
theorem C6_witness :
    "musicbrainz_id" ∈ registryNames ∧
    Fields._camel_to_snake_case (Fields._snake_to_camel_case "musicbrainz_id") =
      "musicbrainz_id" :=
  ⟨by decide, (C6_case_conversion_roundtrip "musicbrainz_id" (by decide)).1⟩

/-- C7: the derived authentication token is the lowercase 32-character hex MD5
digest of the UTF-8 bytes of the password concatenated with the salt; for
password "secret" and salt "abcd1234" it is exactly the md5 hex digest of
"secretabcd1234". -/
theorem C7_token_derivation :
    (∀ password salt : String,
      OpenSubsonic._get_token password salt = md5HexDigest (utf8Encode (password ++ salt)))
    ∧ OpenSubsonic._get_token "secret" "abcd1234" = "56f2ffee872afa6f1cec74ba0fe8baa1"
    ∧ (OpenSubsonic._get_token "secret" "abcd1234").length = 32
    ∧ ((OpenSubsonic._get_token "secret" "abcd1234").data.all fun c =>
        c.isDigit || "abcdef".data.contains c) = true := by
  refine ⟨fun _ _ => rfl, by decide, by rfl, by decide⟩

/-- C8: `is_response_ok` is a total boolean query answering exactly whether the
status attribute holds the literal string "ok"; the success envelope
materializes with a true result and a null error, the failure envelope with a
false result and a nested `Error` record whose code is 40. -/
theorem C8_is_response_ok_predicate :
    (∀ inst : List (String × MValue),
        is_response_ok inst = true ↔
          assocLookup inst "status" = some (MValue.raw (Json.str "ok")))
    ∧ subsonicResponseOfText (Json.obj [("subsonic-response",
        Json.obj [("status", Json.str "ok"), ("version", Json.str "1.16.1")])]) =
      Except.ok [("status", MValue.raw (Json.str "ok")),
        ("version", MValue.raw (Json.str "1.16.1")), ("type", MValue.none),
        ("server_version", MValue.none), ("open_subsonic", MValue.none),
        ("error", MValue.none)]
    ∧ is_response_ok [("status", MValue.raw (Json.str "ok")),
        ("version", MValue.raw (Json.str "1.16.1")), ("type", MValue.none),
        ("server_version", MValue.none), ("open_subsonic", MValue.none),
        ("error", MValue.none)] = true
    ∧ assocLookup [("status", MValue.raw (Json.str "ok")),
        ("version", MValue.raw (Json.str "1.16.1")), ("type", MValue.none),
        ("server_version", MValue.none), ("open_subsonic", MValue.none),
        ("error", MValue.none)] "error" = some MValue.none
    ∧ subsonicResponseOfText (Json.obj [("subsonic-response",
        Json.obj [("status", Json.str "failure"), ("version", Json.str "1.16.1"),
          ("error", Json.obj [("code", Json.num 40),
            ("message", Json.str "Wrong username or password")])])]) =
      Except.ok [("status", MValue.raw (Json.str "failure")),
        ("version", MValue.raw (Json.str "1.16.1")), ("type", MValue.none),
        ("server_version", MValue.none), ("open_subsonic", MValue.none),
        ("error", MValue.record "Error" [("code", MValue.raw (Json.num 40)),
          ("message", MValue.raw (Json.str "Wrong username or password")),
          ("help_url", MValue.none)])]
    ∧ is_response_ok [("status", MValue.raw (Json.str "failure")),
        ("version", MValue.raw (Json.str "1.16.1")), ("type", MValue.none),
        ("server_version", MValue.none), ("open_subsonic", MValue.none),
        ("error", MValue.record "Error" [("code", MValue.raw (Json.num 40)),
          ("message", MValue.raw (Json.str "Wrong username or password")),
          ("help_url", MValue.none)])] = false
    ∧ assocLookup [("code", MValue.raw (Json.num 40)),
        ("message", MValue.raw (Json.str "Wrong username or password")),
        ("help_url", MValue.none)] "code" = some (MValue.raw (Json.num 40)) := by
  refine ⟨?_, conc_envelope_ok, rfl, rfl, conc_envelope_fail, rfl, rfl⟩
  intro inst
  unfold is_response_ok
  cases hl : assocLookup inst "status" with
  | none => simp
  | some mv =>
    cases mv with
    | none => simp
    | raw j =>
      cases j <;> simp
    | datetime s => simp
    | timedelta n => simp
    | record n attrs => simp

/-- C9 counterexample: a response carrying no `Accept` header does not signal
an XML content type, yet `download` does not return its byte payload — it
raises `KeyError` on the header lookup. -/
theorem C9_counterexample_no_accept_header :
    specSignalsXmlContentType ⟨[], Json.null, [1, 2, 3]⟩ = false ∧
    OpenSubsonic.download ⟨[], Json.null, [1, 2, 3]⟩ ≠
      Except.ok (OpenSubsonic.DownloadResult.media [1, 2, 3]) ∧
    OpenSubsonic.download ⟨[], Json.null, [1, 2, 3]⟩ =
      Except.error (MErr.keyError "Accept") := by
  refine ⟨rfl, ?_, rfl⟩
  intro h
  exact Except.noConfusion h

/-- C9 (amended): for every download whose response carries an Accept header,
if that header contains "application/xml" the byte payload is parsed as a JSON
error envelope into a `SubsonicResponse`, otherwise the raw bytes are returned
unparsed; a response without an Accept header instead raises KeyError. -/
theorem C9_download_branches :
    ∀ (resp : OpenSubsonic.HttpxResponse) (accept : String),
      OpenSubsonic.httpxHeadersLookup resp.headers "Accept" = some accept →
      (OpenSubsonic.strContainsSub accept "application/xml" = true →
        OpenSubsonic.download resp =
          (subsonicResponseOfText resp.text).map OpenSubsonic.DownloadResult.envelope) ∧
      (OpenSubsonic.strContainsSub accept "application/xml" = false →
        OpenSubsonic.download resp =
          Except.ok (OpenSubsonic.DownloadResult.media resp.content)) := by
  intro resp accept h
  constructor
  · intro hx
    unfold OpenSubsonic.download
    rw [h]
    simp [hx]
  · intro hx
    unfold OpenSubsonic.download
    rw [h]
    simp [hx]

/-- Witness for C9's amended claim: a JSON Accept header yields the raw
bytes. -/
theorem C9_witness :
    OpenSubsonic.httpxHeadersLookup [("Accept", "application/json")] "Accept" =
      some "application/json" ∧
    OpenSubsonic.download ⟨[("Accept", "application/json")], Json.null, [7, 8]⟩ =
      Except.ok (OpenSubsonic.DownloadResult.media [7, 8]) := by
  refine ⟨rfl, ?_⟩
  exact (C9_download_branches ⟨[("Accept", "application/json")], Json.null, [7, 8]⟩
    "application/json" rfl).2 rfl

/-- C10: every `change_password` call issues its single GET to the
`addChatMessage` path — the same path `add_chat_message` uses — carrying the
given username and password as query parameters, and never to a
`changePassword` path. -/
theorem C10_change_password_hits_addChatMessage :
    ∀ (self : OpenSubsonic.State) (username password : String),
      (OpenSubsonic.change_password self username password).path = "/addChatMessage" ∧
      (OpenSubsonic.change_password self username password).path =
        (OpenSubsonic.add_chat_message self "hello").path ∧
      assocLookup (OpenSubsonic.change_password self username password).params
        "username" = some username ∧
      assocLookup (OpenSubsonic.change_password self username password).params
        "password" = some password ∧
      (OpenSubsonic.change_password self username password).path ≠ "/changePassword" := by
  intro self username password
  refine ⟨rfl, rfl, rfl, rfl, ?_⟩
  show ("/addChatMessage" : String) ≠ "/changePassword"
  decide

end Pysonic
